import Mathlib

/-!
Verification of the dev-browser-skill coordination core: a shallow
embedding of the profile-lock manager, the port allocator, the instance
registry and the stop path, with theorems checking the claims of the
specification against the embedded code.

Filesystem effects are made explicit: a lock file is an
`Option LockContent` (present or absent), a registry directory is a
`List RegFile`.  Points where another OS process could interleave are
parameterised by a schedule of observed filesystem snapshots; "no
interference" is expressed by equating consecutive snapshots.
-/

namespace DevBrowser

/-! ## JSON values (the fragment the lock / registry files use) -/

/-- A JSON field value as the lock-file reader sees it: a number, a
string, or `undef` for a missing field (JS `undefined`). -/
inductive JVal where
  | num (n : Int)
  | str (s : String)
  | undef
deriving DecidableEq, Repr

/-- Rendering of a `JVal` inside a JS template literal. -/
def jvalRender : JVal → String
  | .num n => toString n
  | .str s => s
  | .undef => "undefined"

/-- Predicate `strIncludes hay needle`: `needle` occurs as a substring of `hay`. -/
def strIncludes (hay needle : String) : Prop :=
  ∃ a b : List Char, hay.data = a ++ needle.data ++ b

/-! ## Profile lock files (`instance-registry.ts`, profile-lock module)

`LockInfo` in the source is `{ pid, port, startedAt }`.  A lock file on
disk either fails `JSON.parse` (`malformed`) or parses to an object whose
`pid` / `port` / `startedAt` fields are arbitrary JSON values. -/

/-- A parsed lock-file object before the type checks of `readLock`. -/
structure RawLock where
  pid : JVal
  port : JVal
  startedAt : JVal
deriving DecidableEq, Repr

/-- The contents of an existing lock file: unparseable text, or a parsed
JSON object. -/
inductive LockContent where
  | malformed
  | obj (raw : RawLock)
deriving DecidableEq, Repr

/-- The lock record `readLock` returns after validating that `pid` and
`port` are numbers.  `startedAt` is passed through unvalidated, exactly
as the unchecked cast in the source does. -/
structure LockInfo where
  pid : Int
  port : Int
  startedAt : JVal
deriving DecidableEq, Repr

/-- Function `readLock` (profile-lock module): `null` when the file does not
exist, when `JSON.parse` throws, or when `pid` / `port` are not numbers;
otherwise the parsed record. -/
def readLock : Option LockContent → Option LockInfo
  | none => none
  | some .malformed => none
  | some (.obj raw) =>
    match raw.pid, raw.port with
    | .num p, .num q => some ⟨p, q, raw.startedAt⟩
    | _, _ => none

/-- Path `lockFilePath`: `join(profileDir, ".dev-browser.lock")`. -/
def lockFilePath (profileDir : String) : String :=
  profileDir ++ "/.dev-browser.lock"

/-- The error message thrown when the profile directory is locked by a
live instance (right-nested so each interpolated piece is exposed). -/
def conflictMsg (profileDir : String) (ex : LockInfo) : String :=
  "Profile directory \"" ++ (profileDir ++ ("\" is locked by another instance (PID " ++
    (toString ex.pid ++ (", port " ++ (toString ex.port ++ (", started " ++
      (jvalRender ex.startedAt ++
        "). Use a different --profile-dir or stop the other instance first.")))))))

/-- The error message thrown when another process wins the exclusive
create race and is still alive on re-read. -/
def raceMsg (profileDir : String) (w : LockInfo) : String :=
  "Profile directory \"" ++ (profileDir ++ ("\" was just locked by PID " ++
    (toString w.pid ++ (" on port " ++ (toString w.port ++ ".")))))

/-- The raw `EEXIST` error surfaced when the single retried exclusive
create also finds the file present (the second `writeFileSync` with flag
`wx` is outside the `try`, so the filesystem error propagates).  Node
additionally wraps the path in single quotes, which we elide. -/
def eexistMsg (profileDir : String) : String :=
  "EEXIST: file already exists, open " ++ lockFilePath profileDir

/-- The JSON object `acquireProfileLock` serialises as the new lock. -/
def lockDataJson (selfPid port : Int) (now : String) : RawLock :=
  ⟨.num selfPid, .num port, .str now⟩

/-- Snapshots of the lock file at each point where `acquireProfileLock`
touches the filesystem; other processes may have changed the file in
between, so each step observes its own snapshot.
  `s0` — at the initial `readLock`;
  `s1` — at the first exclusive (`wx`) create;
  `s2` — at the re-read after an `EEXIST` from that create;
  `s3` — at the retried exclusive create. -/
structure Sched where
  s0 : Option LockContent
  s1 : Option LockContent
  s2 : Option LockContent
  s3 : Option LockContent

/-- Outcome of `acquireProfileLock`: returned normally, or threw the
given error message. -/
inductive AcqOutcome where
  | acquired
  | failed (msg : String)
deriving DecidableEq, Repr

/-- Result of an acquisition attempt: its outcome, the lock-file state
after the last filesystem action the call performed, and how many
exclusive-create attempts were made. -/
structure AcquireRes where
  outcome : AcqOutcome
  finalFile : Option LockContent
  writeAttempts : Nat
deriving DecidableEq, Repr

/-- Function `acquireProfileLock(profileDir, port)` over the snapshot schedule:
read the existing lock; fail on a live holder; drop a stale one; then
exclusively create, and on `EEXIST` re-read, fail on a live winner,
otherwise delete and retry the create exactly once. -/
def acquireProfileLock (live : Int → Bool) (selfPid : Int) (profileDir : String)
    (port : Int) (now : String) (sch : Sched) : AcquireRes :=
  let written : LockContent := .obj (lockDataJson selfPid port now)
  let write2 : AcquireRes :=
    match sch.s3 with
    | none => ⟨.acquired, some written, 2⟩
    | some c => ⟨.failed (eexistMsg profileDir), some c, 2⟩
  let write1 : AcquireRes :=
    match sch.s1 with
    | none => ⟨.acquired, some written, 1⟩
    | some _ =>
      match readLock sch.s2 with
      | some w => if live w.pid then ⟨.failed (raceMsg profileDir w), sch.s2, 1⟩ else write2
      | none => write2
  match readLock sch.s0 with
  | some ex =>
    if live ex.pid then ⟨.failed (conflictMsg profileDir ex), sch.s0, 0⟩
    else write1
  | none => write1

/-! ## Port allocation (`port-selection.ts`)

`isPortAvailable` binds a loopback socket and releases it; it is
abstracted as an oracle `free : Nat → Bool` over ports. -/

/-- Result record of `findAvailablePort`. -/
structure PortSelectionResult where
  port : Nat
  cdpPort : Nat
  wasAutoSelected : Bool
  requestedPort : Nat
deriving DecidableEq, Repr

/-- The exhaustion error thrown after the auto-selection loop: at throw
time `candidate` holds the first value not probed, so the message names
the scanned range `requestedPort`–`candidate - 2` (JS arithmetic, hence
the `Int` subtraction). -/
def exhaustMsg (maxAttempts requestedPort exitCandidate : Nat) : String :=
  "Could not find an available port pair after " ++ (toString maxAttempts ++
    (" attempts (tried " ++ (toString requestedPort ++ ("–" ++
      (toString ((exitCandidate : Int) - 2) ++ "). Specify an explicit --port.")))))

/-- Error for an occupied explicitly-requested HTTP port. -/
def portInUseMsg (p : Nat) : String :=
  "Port " ++ (toString p ++ " is already in use. Specify a different --port.")

/-- Error for an occupied explicitly-requested CDP port. -/
def cdpInUseMsg (p : Nat) : String :=
  "CDP port " ++ (toString p ++ " is already in use. Specify a different --cdp-port.")

/-- The auto-selection loop of `findAvailablePort`: up to `fuel` more
attempts starting at `candidate`; stops early when the pair would leave
the valid port range; on failure returns the candidate value at exit so
the caller can format the exhaustion message. -/
def findLoop (free : Nat → Bool) (requestedPort : Nat) :
    Nat → Nat → Except Nat PortSelectionResult
  | candidate, 0 => .error candidate
  | candidate, fuel + 1 =>
    if candidate > 65535 || candidate + 1 > 65535 then .error candidate
    else if free candidate && free (candidate + 1) then
      .ok ⟨candidate, candidate + 1, decide (candidate ≠ requestedPort), requestedPort⟩
    else findLoop free requestedPort (candidate + 2) fuel

/-- Function `findAvailablePort(requestedPort, requestedCdpPort?, maxAttempts)`:
with an explicit CDP port only that exact pair is probed; otherwise the
auto-selection loop advances by 2 from the requested port. -/
def findAvailablePort (free : Nat → Bool) (requestedPort : Nat)
    (requestedCdpPort : Option Nat) (maxAttempts : Nat) :
    Except String PortSelectionResult :=
  match requestedCdpPort with
  | some cdp =>
    if !free requestedPort then .error (portInUseMsg requestedPort)
    else if !free cdp then .error (cdpInUseMsg cdp)
    else .ok ⟨requestedPort, cdp, false, requestedPort⟩
  | none =>
    match findLoop free requestedPort requestedPort maxAttempts with
    | .ok r => .ok r
    | .error exitCandidate => .error (exhaustMsg maxAttempts requestedPort exitCandidate)

/-! ## Instance registry (`instance-registry.ts`, extended variant with
`chromePid` and the stop path)

A registry directory is a `List RegFile`: one file per primary port
(the filename stem), whose contents either fail `JSON.parse` (`none`)
or parse to a JSON value.  Registry files are only ever written by
`registerInstance` / `updateInstanceChromePid`, so parseable files hold
well-formed records; a parseable file of any other shape is treated
like an unreadable one (the unchecked `as InstanceInfo` cast in the source
would instead propagate it as a garbage record, a case no registry
operation of this module can produce). -/

/-- The `mode` field of a record. -/
inductive Mode where
  | launch
  | relay
deriving DecidableEq, Repr

/-- Record type `InstanceInfo`: one registry record. -/
structure InstanceInfo where
  pid : Int
  port : Int
  cdpPort : Int
  mode : Mode
  label : String
  headless : Bool
  startedAt : String
  profileDir : Option String
  chromePid : Option Int
deriving DecidableEq, Repr

/-- The JSON fragment a registry file can hold. -/
inductive J where
  | num (n : Int)
  | str (s : String)
  | bool (b : Bool)
  | obj (fields : List (String × J))

def modeString : Mode → String
  | .launch => "launch"
  | .relay => "relay"

/-- Serialisation `JSON.stringify` of a record: `undefined` optional fields are
dropped, the rest serialise in declaration order. -/
def instToJson (i : InstanceInfo) : J :=
  .obj ([("pid", .num i.pid), ("port", .num i.port), ("cdpPort", .num i.cdpPort),
         ("mode", .str (modeString i.mode)), ("label", .str i.label),
         ("headless", .bool i.headless), ("startedAt", .str i.startedAt)]
    ++ (match i.profileDir with | some d => [("profileDir", .str d)] | none => [])
    ++ (match i.chromePid with | some c => [("chromePid", .num c)] | none => []))

/-- First field with the given key, as `JSON.parse` object access. -/
def jLookup (fields : List (String × J)) (k : String) : Option J :=
  (fields.find? (fun p => p.1 == k)).map (fun p => p.2)

def asNum : Option J → Option Int
  | some (.num n) => some n
  | _ => none

def asStr : Option J → Option String
  | some (.str s) => some s
  | _ => none

def asBool : Option J → Option Bool
  | some (.bool b) => some b
  | _ => none

/-- Optional string field: absent is `undefined`, present must be a
string. -/
def asOptStr : Option J → Option (Option String)
  | none => some none
  | some (.str s) => some (some s)
  | _ => none

/-- Optional numeric field: absent is `undefined`, present must be a
number. -/
def asOptNum : Option J → Option (Option Int)
  | none => some none
  | some (.num n) => some (some n)
  | _ => none

def decodeMode (s : String) : Option Mode :=
  if s = "launch" then some .launch
  else if s = "relay" then some .relay
  else none

/-- Reading a parsed registry file back as an `InstanceInfo`. -/
def decodeInstance : J → Option InstanceInfo
  | .obj fields => do
    let pid ← asNum (jLookup fields ("pid"))
    let port ← asNum (jLookup fields ("port"))
    let cdpPort ← asNum (jLookup fields ("cdpPort"))
    let modeStr ← asStr (jLookup fields ("mode"))
    let mode ← decodeMode modeStr
    let label ← asStr (jLookup fields ("label"))
    let headless ← asBool (jLookup fields ("headless"))
    let startedAt ← asStr (jLookup fields ("startedAt"))
    let profileDir ← asOptStr (jLookup fields ("profileDir"))
    let chromePid ← asOptNum (jLookup fields ("chromePid"))
    pure ⟨pid, port, cdpPort, mode, label, headless, startedAt, profileDir, chromePid⟩
  | _ => none

/-- One file of the registry directory: the filename stem (the primary
port) and the parse result of its contents (`none`: `JSON.parse`
throws). -/
structure RegFile where
  port : Int
  content : Option J

/-- Effect of `unlinkSync` on the file named by `port` (at most one exists). -/
def removeFile (port : Int) (reg : List RegFile) : List RegFile :=
  reg.filter (fun f => !(f.port == port))

/-- Function `registerInstance`: create-or-overwrite `{port}.json` with the
serialised record. -/
def registerInstance (info : InstanceInfo) (reg : List RegFile) : List RegFile :=
  removeFile info.port reg ++ [⟨info.port, some (instToJson info)⟩]

/-- Function `listInstances`: parse every readable file, skip the rest, sort
ascending by port (JS `sort` is stable). -/
def listInstances (reg : List RegFile) : List InstanceInfo :=
  (reg.filterMap (fun f => f.content.bind decodeInstance)).insertionSort
    (fun a b => a.port ≤ b.port)

/-- The loop body of `cleanStaleInstances`: walk the listed records,
collect each one whose pid is dead and delete its file. -/
def cleanLoop (live : Int → Bool) :
    List InstanceInfo → List InstanceInfo × List RegFile → List InstanceInfo × List RegFile
  | [], acc => acc
  | info :: rest, (st, r) =>
    if live info.pid then cleanLoop live rest (st, r)
    else cleanLoop live rest (st ++ [info], removeFile info.port r)

/-- Function `cleanStaleInstances()`: list, then prune every record whose pid is
not live, returning the pruned records. -/
def cleanStaleInstances (live : Int → Bool) (reg : List RegFile) :
    List InstanceInfo × List RegFile :=
  cleanLoop live (listInstances reg) ([], reg)

/-- Function `formatUptime`, over the two millisecond clock readings (`Date`
parsing of the ISO string is the job of the JS library; `Math.floor` on the
non-negative quotients is `Nat` division). -/
def formatUptime (nowMs startMs : Int) : String :=
  let diffMs := nowMs - startMs
  if diffMs < 0 then "0s"
  else
    let seconds := diffMs.toNat / 1000
    let minutes := seconds / 60
    let hours := minutes / 60
    let days := hours / 24
    if days > 0 then toString days ++ ("d " ++ (toString (hours % 24) ++ "h"))
    else if hours > 0 then toString hours ++ ("h " ++ (toString (minutes % 60) ++ "m"))
    else if minutes > 0 then toString minutes ++ "m"
    else toString seconds ++ "s"

/-! ## Stop path (`port-selection.ts`, extended registry module) -/

/-- Signals `stopInstance` can send. -/
inductive Sig where
  | sigterm
  | sigkill
deriving DecidableEq, Repr

/-- Return value of `stopInstance`. -/
structure StopResult where
  port : Int
  success : Bool
  message : String
deriving DecidableEq, Repr

/-- Result of `stopInstance` together with its side effects: the registry
afterwards and the signals it sent, in order. -/
structure StopEffects where
  result : StopResult
  reg : List RegFile
  signals : List (Int × Sig)

def notRegisteredMsg (port : Int) : String :=
  "No instance registered on port " ++ toString port

def alreadyStoppedMsg (port : Int) : String :=
  "Instance on port " ++ (toString port ++ " was already stopped (cleaned registry)")

def stoppedMsg (port : Int) : String :=
  "Instance on port " ++ (toString port ++ " stopped successfully")

def runningWord (gone : Bool) : String :=
  if gone then "stopped" else "running"

def partialStopMsg (port : Int) (serverGone chromeGone : Bool) : String :=
  "Instance on port " ++ (toString port ++ (" may not have fully stopped (server: " ++
    (runningWord serverGone ++ (", chrome: " ++ (runningWord chromeGone ++ ")")))))

/-- Function `getInstance(port)`: read the single record or `null`. -/
def getInstance (reg : List RegFile) (port : Int) : Option InstanceInfo :=
  match reg.find? (fun f => f.port == port) with
  | some f => f.content.bind decodeInstance
  | none => none

/-- JS truthiness-guarded liveness of the recorded child:
`info.chromePid && isProcessRunning(info.chromePid)`. -/
def chromeAlive (live : Int → Bool) (chromePid : Option Int) : Bool :=
  match chromePid with
  | some c => (!(c == 0)) && live c
  | none => false

/-- Function `stopInstance(port)`.  Argument `live` is process liveness at entry; the
bounded real-time waits of the live-owner branch are abstracted by
`later`, liveness once the grace periods have elapsed (real time is not
modelled).  The dead-owner branch never waits and uses `live` only. -/
def stopInstance (live later : Int → Bool) (reg : List RegFile) (port : Int) :
    StopEffects :=
  match getInstance reg port with
  | none => ⟨⟨port, false, notRegisteredMsg port⟩, reg, []⟩
  | some info =>
    if live info.pid then
      let sigs1 := [(info.pid, Sig.sigterm)]
      let sigs2 := if later info.pid then sigs1 ++ [(info.pid, Sig.sigkill)] else sigs1
      let sigs3 := if chromeAlive later info.chromePid then
          sigs2 ++ [(info.chromePid.getD 0, Sig.sigkill)] else sigs2
      let serverGone := !(later info.pid)
      let chromeGone := !(chromeAlive later info.chromePid)
      if serverGone && chromeGone then
        ⟨⟨port, true, stoppedMsg port⟩, removeFile port reg, sigs3⟩
      else
        ⟨⟨port, false, partialStopMsg port serverGone chromeGone⟩, removeFile port reg, sigs3⟩
    else
      if chromeAlive live info.chromePid then
        ⟨⟨port, true, alreadyStoppedMsg port⟩, removeFile port reg,
         [(info.chromePid.getD 0, Sig.sigkill)]⟩
      else
        ⟨⟨port, true, alreadyStoppedMsg port⟩, removeFile port reg, []⟩

/-! ## Claim C4: exactness of the stale sweep -/

/-- The filesystem effect of the stale sweep in isolation: delete the
file of each dead record in listing order. -/
def removeStaleFiles (live : Int → Bool) : List InstanceInfo → List RegFile → List RegFile
  | [], r => r
  | i :: rest, r =>
    removeStaleFiles live rest (if live i.pid then r else removeFile i.port r)

theorem strIncludes_head (m b : String) : strIncludes (m ++ b) m :=
  ⟨[], b.data, by simp⟩

theorem strIncludes_tail (s t m : String) (h : strIncludes t m) : strIncludes (s ++ t) m := by
  obtain ⟨a, b, hab⟩ := h
  exact ⟨s.data ++ a, b, by simp [hab]⟩

/-! ## Claims about the profile lock -/

/-- C1: when the lock file parses to a record whose pid is a live
process, `acquireProfileLock` fails with an error naming the pid of the
holder, port and acquisition time, performs no exclusive-create attempt,
and leaves the lock file exactly as it found it. -/
theorem acquire_live_holder_conflict (live : Int → Bool) (selfPid : Int)
    (profileDir : String) (port : Int) (now : String) (sch : Sched) (ex : LockInfo)
    (hread : readLock sch.s0 = some ex) (hlive : live ex.pid = true) :
    acquireProfileLock live selfPid profileDir port now sch =
      ⟨.failed (conflictMsg profileDir ex), sch.s0, 0⟩ ∧
    strIncludes (conflictMsg profileDir ex) (toString ex.pid) ∧
    strIncludes (conflictMsg profileDir ex) (toString ex.port) ∧
    strIncludes (conflictMsg profileDir ex) (jvalRender ex.startedAt) := by
  refine ⟨by simp [acquireProfileLock, hread, hlive], ?_, ?_, ?_⟩
  · exact strIncludes_tail _ _ _ (strIncludes_tail _ _ _
      (strIncludes_tail _ _ _ (strIncludes_head _ _)))
  · exact strIncludes_tail _ _ _ (strIncludes_tail _ _ _ (strIncludes_tail _ _ _
      (strIncludes_tail _ _ _ (strIncludes_tail _ _ _ (strIncludes_head _ _)))))
  · exact strIncludes_tail _ _ _ (strIncludes_tail _ _ _ (strIncludes_tail _ _ _
      (strIncludes_tail _ _ _ (strIncludes_tail _ _ _ (strIncludes_tail _ _ _
        (strIncludes_tail _ _ _ (strIncludes_head _ _)))))))

theorem acquire_live_holder_conflict_witness :
    acquireProfileLock (fun p => decide (p = 5)) 9 ("/tmp/prof") 9300 ("T1")
        ⟨some (.obj ⟨.num 5, .num 9222, .str ("T0")⟩), none, none, none⟩ =
      ⟨.failed (conflictMsg ("/tmp/prof") ⟨5, 9222, .str ("T0")⟩),
       some (.obj ⟨.num 5, .num 9222, .str ("T0")⟩), 0⟩ :=
  (acquire_live_holder_conflict (fun p => decide (p = 5)) 9 ("/tmp/prof") 9300 ("T1")
    ⟨some (.obj ⟨.num 5, .num 9222, .str ("T0")⟩), none, none, none⟩
    ⟨5, 9222, .str ("T0")⟩ rfl rfl).1

/-- C5: when the lock file parses to a record whose pid is not live and
no other process interferes (the file is gone at the exclusive create,
because this call just removed it), `acquireProfileLock` succeeds on the
first create and the lock file afterwards holds the pid of the caller, the
given port and the fresh acquisition time. -/
theorem acquire_replaces_stale_lock (live : Int → Bool) (selfPid : Int)
    (profileDir : String) (port : Int) (now : String) (sch : Sched) (ex : LockInfo)
    (hread : readLock sch.s0 = some ex) (hdead : live ex.pid = false)
    (hquiet : sch.s1 = none) :
    acquireProfileLock live selfPid profileDir port now sch =
      ⟨.acquired, some (.obj (lockDataJson selfPid port now)), 1⟩ := by
  simp [acquireProfileLock, hread, hdead, hquiet]

theorem acquire_replaces_stale_lock_witness :
    acquireProfileLock (fun p => decide (p = 5)) 9 ("/tmp/prof") 9300 ("T1")
        ⟨some (.obj ⟨.num 77, .num 9222, .str ("T0")⟩), none, none, none⟩ =
      ⟨.acquired, some (.obj (lockDataJson 9 9300 ("T1"))), 1⟩ :=
  acquire_replaces_stale_lock (fun p => decide (p = 5)) 9 ("/tmp/prof") 9300 ("T1")
    ⟨some (.obj ⟨.num 77, .num 9222, .str ("T0")⟩), none, none, none⟩
    ⟨77, 9222, .str ("T0")⟩ rfl rfl rfl

/-- C10: when the lock file exists but does not parse to a valid record,
`readLock` reports no lock, the exclusive create fails with `EEXIST`,
and — absent concurrent writers — the recovery path deletes the
malformed file and succeeds on its single retry. -/
theorem acquire_malformed_lock_recovers (live : Int → Bool) (selfPid : Int)
    (profileDir : String) (port : Int) (now : String) (sch : Sched) (c : LockContent)
    (hfile : sch.s0 = some c) (hbad : readLock sch.s0 = none)
    (h1 : sch.s1 = sch.s0) (h2 : sch.s2 = sch.s0) (h3 : sch.s3 = none) :
    acquireProfileLock live selfPid profileDir port now sch =
      ⟨.acquired, some (.obj (lockDataJson selfPid port now)), 2⟩ := by
  have hbad' : readLock (some c) = none := hfile ▸ hbad
  simp [acquireProfileLock, hfile, h1, h2, h3, hbad']

theorem acquire_malformed_lock_recovers_witness :
    acquireProfileLock (fun p => decide (p = 5)) 9 ("/tmp/prof") 9300 ("T1")
        ⟨some .malformed, some .malformed, some .malformed, none⟩ =
      ⟨.acquired, some (.obj (lockDataJson 9 9300 ("T1"))), 2⟩ :=
  acquire_malformed_lock_recovers (fun p => decide (p = 5)) 9 ("/tmp/prof") 9300 ("T1")
    ⟨some .malformed, some .malformed, some .malformed, none⟩ .malformed rfl rfl rfl rfl rfl

/-- C3: when the exclusive create loses the race (`EEXIST`), the lock is
re-read: a live winner yields a conflict error naming its pid and port
after that single failed attempt; a dead or unreadable winner leads to a
delete and exactly one retried create, which either succeeds or gives up
with the conflict (`EEXIST`) error — never a third attempt. -/
theorem acquire_race_single_retry (live : Int → Bool) (selfPid : Int)
    (profileDir : String) (port : Int) (now : String) (sch : Sched) (c : LockContent)
    (hs0 : readLock sch.s0 = none ∨ ∃ ex, readLock sch.s0 = some ex ∧ live ex.pid = false)
    (hs1 : sch.s1 = some c) :
    (∀ w, readLock sch.s2 = some w → live w.pid = true →
      acquireProfileLock live selfPid profileDir port now sch =
        ⟨.failed (raceMsg profileDir w), sch.s2, 1⟩ ∧
      strIncludes (raceMsg profileDir w) (toString w.pid) ∧
      strIncludes (raceMsg profileDir w) (toString w.port)) ∧
    ((∀ w, readLock sch.s2 = some w → live w.pid = false) → sch.s3 = none →
      acquireProfileLock live selfPid profileDir port now sch =
        ⟨.acquired, some (.obj (lockDataJson selfPid port now)), 2⟩) ∧
    ((∀ w, readLock sch.s2 = some w → live w.pid = false) → ∀ d, sch.s3 = some d →
      acquireProfileLock live selfPid profileDir port now sch =
        ⟨.failed (eexistMsg profileDir), some d, 2⟩) := by
  have hpid : ∀ w : LockInfo, strIncludes (raceMsg profileDir w) (toString w.pid) :=
    fun w => strIncludes_tail _ _ _ (strIncludes_tail _ _ _
      (strIncludes_tail _ _ _ (strIncludes_head _ _)))
  have hport : ∀ w : LockInfo, strIncludes (raceMsg profileDir w) (toString w.port) :=
    fun w => strIncludes_tail _ _ _ (strIncludes_tail _ _ _ (strIncludes_tail _ _ _
      (strIncludes_tail _ _ _ (strIncludes_tail _ _ _ (strIncludes_head _ _)))))
  refine ⟨fun w hw hlw => ⟨?_, hpid w, hport w⟩, fun hno h3 => ?_, fun hno d h3 => ?_⟩ <;>
    rcases hs0 with h | ⟨ex, hex, hdead⟩
  · simp [acquireProfileLock, h, hs1, hw, hlw]
  · simp [acquireProfileLock, hex, hdead, hs1, hw, hlw]
  · cases hcase : readLock sch.s2 with
    | none => simp [acquireProfileLock, h, hs1, hcase, h3]
    | some w => simp [acquireProfileLock, h, hs1, hcase, hno w hcase, h3]
  · cases hcase : readLock sch.s2 with
    | none => simp [acquireProfileLock, hex, hdead, hs1, hcase, h3]
    | some w => simp [acquireProfileLock, hex, hdead, hs1, hcase, hno w hcase, h3]
  · cases hcase : readLock sch.s2 with
    | none => simp [acquireProfileLock, h, hs1, hcase, h3]
    | some w => simp [acquireProfileLock, h, hs1, hcase, hno w hcase, h3]
  · cases hcase : readLock sch.s2 with
    | none => simp [acquireProfileLock, hex, hdead, hs1, hcase, h3]
    | some w => simp [acquireProfileLock, hex, hdead, hs1, hcase, hno w hcase, h3]

theorem acquire_race_single_retry_witness :
    acquireProfileLock (fun p => decide (p = 7)) 9 ("/tmp/prof") 9300 ("T1")
        ⟨none, some .malformed, some (.obj ⟨.num 7, .num 9224, .str ("T2")⟩), none⟩ =
      ⟨.failed (raceMsg ("/tmp/prof") ⟨7, 9224, .str ("T2")⟩),
       some (.obj ⟨.num 7, .num 9224, .str ("T2")⟩), 1⟩ :=
  (((acquire_race_single_retry (fun p => decide (p = 7)) 9 ("/tmp/prof") 9300 ("T1")
    ⟨none, some .malformed, some (.obj ⟨.num 7, .num 9224, .str ("T2")⟩), none⟩
    .malformed (.inl rfl) rfl).1) ⟨7, 9224, .str ("T2")⟩ rfl rfl).1

theorem toString_intCast (n : Nat) : toString ((n : Int)) = toString n := rfl

theorem findLoop_ok (free : Nat → Bool) (req : Nat) :
    ∀ (k c fuel : Nat), k < fuel →
    (∀ j, j < k → ¬(free (c + 2*j) = true ∧ free (c + 2*j + 1) = true)) →
    c + 2*k + 1 ≤ 65535 →
    free (c + 2*k) = true → free (c + 2*k + 1) = true →
    findLoop free req c fuel =
      .ok ⟨c + 2*k, c + 2*k + 1, decide (c + 2*k ≠ req), req⟩ := by
  intro k
  induction k with
  | zero =>
    intro c fuel hfuel _ hrange hf1 hf2
    obtain ⟨f, rfl⟩ := Nat.exists_eq_add_of_lt hfuel
    simp only [Nat.mul_zero, Nat.add_zero] at hrange hf1 hf2 ⊢
    have hc : ¬(c > 65535 || c + 1 > 65535) = true := by
      simp only [Bool.or_eq_true, decide_eq_true_eq]; omega
    simp [findLoop, hc, hf1, hf2]
  | succ k ih =>
    intro c fuel hfuel hmin hrange hf1 hf2
    obtain ⟨f, rfl⟩ := Nat.exists_eq_add_of_lt hfuel
    have hc : ¬(c > 65535 || c + 1 > 65535) = true := by
      simp only [Bool.or_eq_true, decide_eq_true_eq]; omega
    have h0 : ¬(free c = true ∧ free (c + 1) = true) := by
      have := hmin 0 (Nat.succ_pos k)
      simpa using this
    have hnotfree : ¬(free c && free (c + 1)) = true := by
      simp only [Bool.and_eq_true]; exact h0
    have hrw : c + 2 + 2*k = c + 2*(k+1) := by ring
    have hrec := ih (c + 2) (k + 1 + f) (by omega)
      (fun j hj => by
        have := hmin (j + 1) (by omega)
        have hx : c + 2 + 2*j = c + 2*(j+1) := by ring
        rw [hx]
        simpa using this)
      (by omega)
      (by rw [hrw]; exact hf1)
      (by rw [hrw]; exact hf2)
    rw [hrw] at hrec
    simp [findLoop, hc, hnotfree, hrec]

theorem findLoop_error (free : Nat → Bool) (req : Nat) :
    ∀ (A c fuel : Nat), A ≤ fuel →
    (A = fuel ∨ c + 2*A + 1 > 65535) →
    (∀ j, j < A → c + 2*j + 1 ≤ 65535) →
    (∀ j, j < A → ¬(free (c + 2*j) = true ∧ free (c + 2*j + 1) = true)) →
    findLoop free req c fuel = .error (c + 2*A) := by
  intro A
  induction A with
  | zero =>
    intro c fuel _ hstop _ _
    rcases hstop with h | h
    · subst h; simp [findLoop]
    · cases fuel with
      | zero => simp [findLoop]
      | succ f =>
        have hc : (c > 65535 || c + 1 > 65535) = true := by
          simp only [Bool.or_eq_true, decide_eq_true_eq]; omega
        simp [findLoop, hc]
  | succ A ih =>
    intro c fuel hfuel hstop hin hbusy
    cases fuel with
    | zero => omega
    | succ f =>
      have hc : ¬(c > 65535 || c + 1 > 65535) = true := by
        have := hin 0 (Nat.succ_pos A)
        simp only [Bool.or_eq_true, decide_eq_true_eq]; omega
      have h0 : ¬(free c = true ∧ free (c + 1) = true) := by
        have := hbusy 0 (Nat.succ_pos A)
        simpa using this
      have hnotfree : ¬(free c && free (c + 1)) = true := by
        simp only [Bool.and_eq_true]; exact h0
      have hrw : c + 2 + 2*A = c + 2*(A+1) := by ring
      have hrec := ih (c + 2) f (by omega)
        (by rcases hstop with h | h
            · exact Or.inl (by omega)
            · exact Or.inr (by omega))
        (fun j hj => by
          have := hin (j + 1) (by omega)
          omega)
        (fun j hj => by
          have := hbusy (j + 1) (by omega)
          have hx : c + 2 + 2*j = c + 2*(j+1) := by ring
          rw [hx]
          simpa using this)
      rw [hrw] at hrec
      simp [findLoop, hc, hnotfree, hrec]

/-! ## Claims about the port allocator -/

/-- C2: with no explicit CDP port and the default bound of 20 attempts,
if `k < 20` is the smallest index whose pair
`(p + 2k, p + 2k + 1)` is free (and that pair lies in the valid port
range), `findAvailablePort` returns exactly that pair, auto-selected
precisely when `k ≠ 0`. -/
theorem findAvailablePort_smallest_free_pair (free : Nat → Bool) (p k : Nat)
    (hk : k < 20) (hrange : p + 2*k + 1 ≤ 65535)
    (hmin : ∀ j, j < k → ¬(free (p + 2*j) = true ∧ free (p + 2*j + 1) = true))
    (hf1 : free (p + 2*k) = true) (hf2 : free (p + 2*k + 1) = true) :
    findAvailablePort free p none 20 =
      .ok ⟨p + 2*k, p + 2*k + 1, decide (k ≠ 0), p⟩ := by
  have hloop := findLoop_ok free p k p 20 hk hmin hrange hf1 hf2
  have hsel : decide (p + 2*k ≠ p) = decide (k ≠ 0) := by
    simp only [decide_eq_decide]; omega
  rw [findAvailablePort, hloop, hsel]

theorem findAvailablePort_smallest_free_pair_witness :
    findAvailablePort (fun n => decide (9224 ≤ n)) 9222 none 20 =
      .ok ⟨9224, 9225, true, 9222⟩ :=
  findAvailablePort_smallest_free_pair (fun n => decide (9224 ≤ n)) 9222 1
    (by decide) (by decide) (by decide) (by decide) (by decide)

/-- C8: if every executable attempt `j < A` of the auto-selection loop
finds its pair occupied, where `A` is the number of iterations actually
run (20, or fewer when the next pair would leave the valid port range),
`findAvailablePort` throws the exhaustion error, whose message names the
requested port and the last candidate tried, `p + 2*(A-1)`. -/
theorem findAvailablePort_exhaustion (free : Nat → Bool) (p A : Nat)
    (hA1 : 1 ≤ A) (hA20 : A ≤ 20)
    (hstop : A = 20 ∨ p + 2*A + 1 > 65535)
    (hin : ∀ j, j < A → p + 2*j + 1 ≤ 65535)
    (hbusy : ∀ j, j < A → ¬(free (p + 2*j) = true ∧ free (p + 2*j + 1) = true)) :
    findAvailablePort free p none 20 = .error (exhaustMsg 20 p (p + 2*A)) ∧
    strIncludes (exhaustMsg 20 p (p + 2*A)) (toString p) ∧
    strIncludes (exhaustMsg 20 p (p + 2*A)) (toString (p + 2*(A - 1))) := by
  have hloop := findLoop_error free p A p 20 hA20 hstop hin hbusy
  refine ⟨by rw [findAvailablePort, hloop], ?_, ?_⟩
  · exact strIncludes_tail _ _ _ (strIncludes_tail _ _ _
      (strIncludes_tail _ _ _ (strIncludes_head _ _)))
  · have hcast : ((p + 2*A : Nat) : Int) - 2 = ((p + 2*(A - 1) : Nat) : Int) := by
      have h2 : p + 2*A = (p + 2*(A - 1)) + 2 := by omega
      rw [h2]
      push_cast
      ring
    have hstr : toString (((p + 2*A : Nat) : Int) - 2) = toString (p + 2*(A - 1)) := by
      rw [hcast, toString_intCast]
    rw [exhaustMsg, ← hstr]
    exact strIncludes_tail _ _ _ (strIncludes_tail _ _ _ (strIncludes_tail _ _ _
      (strIncludes_tail _ _ _ (strIncludes_tail _ _ _ (strIncludes_head _ _)))))

theorem findAvailablePort_exhaustion_witness :
    findAvailablePort (fun _ => false) 9222 none 20 =
      .error (exhaustMsg 20 9222 9262) :=
  (findAvailablePort_exhaustion (fun _ => false) 9222 20
    (by decide) (by decide) (Or.inl rfl) (by decide) (by decide)).1

/-! ## Claims about registration and uptime rendering -/

theorem decode_instToJson (i : InstanceInfo) : decodeInstance (instToJson i) = some i := by
  obtain ⟨pid, port, cdpPort, mode, label, headless, startedAt, profileDir, chromePid⟩ := i
  cases mode <;> cases profileDir <;> cases chromePid <;> rfl

/-- C7: immediately after `registerInstance(r)`, `listInstances()`
contains a record equal to `r`; the serialise-then-parse pipeline
round-trips every field. -/
theorem register_then_list_contains (info : InstanceInfo) (reg : List RegFile) :
    info ∈ listInstances (registerInstance info reg) ∧
    decodeInstance (instToJson info) = some info := by
  refine ⟨?_, decode_instToJson info⟩
  rw [listInstances, List.mem_insertionSort]
  exact List.mem_filterMap.2 ⟨⟨info.port, some (instToJson info)⟩,
    by simp [registerInstance], by simp [decode_instToJson]⟩

theorem natDiv_chain_min (n : Nat) : n / 1000 / 60 = n / 60000 := by
  rw [Nat.div_div_eq_div_mul]

theorem natDiv_chain_hour (n : Nat) : n / 60000 / 60 = n / 3600000 := by
  rw [Nat.div_div_eq_div_mul]

theorem natDiv_chain_day (n : Nat) : n / 3600000 / 24 = n / 86400000 := by
  rw [Nat.div_div_eq_div_mul]

/-- C9: `formatUptime` renders by elapsed-time tier — negative elapsed
clamps to `"0s"`, under a minute whole seconds, under an hour whole
minutes, under a day hours with residual minutes, otherwise days with
residual hours. -/
theorem formatUptime_tiers (nowMs startMs : Int) :
    (nowMs - startMs < 0 → formatUptime nowMs startMs = "0s") ∧
    (0 ≤ nowMs - startMs → nowMs - startMs < 60000 →
      formatUptime nowMs startMs = toString ((nowMs - startMs).toNat / 1000) ++ "s") ∧
    (60000 ≤ nowMs - startMs → nowMs - startMs < 3600000 →
      formatUptime nowMs startMs = toString ((nowMs - startMs).toNat / 60000) ++ "m") ∧
    (3600000 ≤ nowMs - startMs → nowMs - startMs < 86400000 →
      formatUptime nowMs startMs = toString ((nowMs - startMs).toNat / 3600000) ++
        ("h " ++ (toString (((nowMs - startMs).toNat / 60000) % 60) ++ "m"))) ∧
    (86400000 ≤ nowMs - startMs →
      formatUptime nowMs startMs = toString ((nowMs - startMs).toNat / 86400000) ++
        ("d " ++ (toString (((nowMs - startMs).toNat / 3600000) % 24) ++ "h"))) := by
  refine ⟨fun hneg => by simp [formatUptime, hneg], ?_, ?_, ?_, ?_⟩
  · intro h0 hlt
    have hmin : (nowMs - startMs).toNat / 60000 = 0 := Nat.div_eq_of_lt (by omega)
    have hhr : (nowMs - startMs).toNat / 3600000 = 0 := Nat.div_eq_of_lt (by omega)
    have hday : (nowMs - startMs).toNat / 86400000 = 0 := Nat.div_eq_of_lt (by omega)
    simp [formatUptime, not_lt.2 h0, natDiv_chain_min, natDiv_chain_hour,
      natDiv_chain_day, hmin, hhr, hday]
  · intro h0 hlt
    have hmin : 0 < (nowMs - startMs).toNat / 60000 :=
      Nat.div_pos (by omega) (by norm_num)
    have hhr : (nowMs - startMs).toNat / 3600000 = 0 := Nat.div_eq_of_lt (by omega)
    have hday : (nowMs - startMs).toNat / 86400000 = 0 := Nat.div_eq_of_lt (by omega)
    simp [formatUptime, not_lt.2 (by omega : (0:Int) ≤ nowMs - startMs),
      natDiv_chain_min, natDiv_chain_hour, natDiv_chain_day, hmin, hhr, hday]
  · intro h0 hlt
    have hhr : 0 < (nowMs - startMs).toNat / 3600000 :=
      Nat.div_pos (by omega) (by norm_num)
    have hday : (nowMs - startMs).toNat / 86400000 = 0 := Nat.div_eq_of_lt (by omega)
    simp [formatUptime, not_lt.2 (by omega : (0:Int) ≤ nowMs - startMs),
      natDiv_chain_min, natDiv_chain_hour, natDiv_chain_day, hhr, hday]
  · intro h0
    have hday : 0 < (nowMs - startMs).toNat / 86400000 :=
      Nat.div_pos (by omega) (by norm_num)
    simp [formatUptime, not_lt.2 (by omega : (0:Int) ≤ nowMs - startMs),
      natDiv_chain_min, natDiv_chain_hour, natDiv_chain_day, hday]

theorem formatUptime_tiers_witness :
    formatUptime 0 0 = "0s" ∧ formatUptime 90000 0 = "1m" ∧
    formatUptime 8100000 0 = "2h 15m" ∧ formatUptime 97200000 0 = "1d 3h" ∧
    formatUptime 0 5000 = "0s" :=
  ⟨(formatUptime_tiers 0 0).2.1 (by decide) (by decide),
   (formatUptime_tiers 90000 0).2.2.1 (by decide) (by decide),
   (formatUptime_tiers 8100000 0).2.2.2.1 (by decide) (by decide),
   (formatUptime_tiers 97200000 0).2.2.2.2 (by decide),
   (formatUptime_tiers 0 5000).1 (by decide)⟩

/-- C6: on a record whose owner pid is dead but whose recorded child is
live, `stopInstance` force-kills exactly the child, deletes the file of
the record, reports `success = true` with the already-stopped message, and
sends no signal to the dead owner pid. -/
theorem stopInstance_dead_owner_live_child (live later : Int → Bool)
    (reg : List RegFile) (port : Int) (info : InstanceInfo) (c : Int)
    (hget : getInstance reg port = some info) (hdead : live info.pid = false)
    (hc : info.chromePid = some c) (hc0 : c ≠ 0) (hlive : live c = true) :
    stopInstance live later reg port =
      ⟨⟨port, true, alreadyStoppedMsg port⟩, removeFile port reg, [(c, Sig.sigkill)]⟩ ∧
    ∀ s, (info.pid, s) ∉
      (stopInstance live later reg port).signals := by
  have hca : chromeAlive live (some c) = true := by
    simp [chromeAlive, hc0, hlive]
  have heff : stopInstance live later reg port =
      ⟨⟨port, true, alreadyStoppedMsg port⟩, removeFile port reg, [(c, Sig.sigkill)]⟩ := by
    simp [stopInstance, hget, hdead, hc, hca]
  have hne : info.pid ≠ c := by
    intro h
    rw [h, hlive] at hdead
    exact Bool.noConfusion hdead
  refine ⟨heff, fun s hs => ?_⟩
  rw [heff] at hs
  simp only [List.mem_singleton, Prod.mk.injEq] at hs
  exact hne hs.1

theorem stopInstance_dead_owner_live_child_witness :
    stopInstance (fun p => decide (p = 44)) (fun _ => false)
        [⟨9222, some (instToJson ⟨10, 9222, 9223, .launch, ("srv"), true, ("T"),
          none, some 44⟩)⟩] 9222 =
      ⟨⟨9222, true, alreadyStoppedMsg 9222⟩, [], [(44, Sig.sigkill)]⟩ :=
  (stopInstance_dead_owner_live_child (fun p => decide (p = 44)) (fun _ => false)
    [⟨9222, some (instToJson ⟨10, 9222, 9223, .launch, ("srv"), true, ("T"),
      none, some 44⟩)⟩] 9222
    ⟨10, 9222, 9223, .launch, ("srv"), true, ("T"), none, some 44⟩ 44
    rfl rfl rfl (by decide) rfl).1

theorem regfile_unique (reg : List RegFile)
    (hnd : (reg.map (fun f => f.port)).Nodup)
    {f g : RegFile} (hf : f ∈ reg) (hg : g ∈ reg) (h : f.port = g.port) : f = g :=
  List.inj_on_of_nodup_map hnd hf hg h

theorem mem_listInstances (reg : List RegFile) (i : InstanceInfo) :
    i ∈ listInstances reg ↔ ∃ f ∈ reg, f.content.bind decodeInstance = some i := by
  rw [listInstances, List.mem_insertionSort, List.mem_filterMap]

theorem cleanLoop_eq (live : Int → Bool) :
    ∀ (l : List InstanceInfo) (st : List InstanceInfo) (r : List RegFile),
    cleanLoop live l (st, r) =
      (st ++ l.filter (fun i => !(live i.pid)), removeStaleFiles live l r) := by
  intro l
  induction l with
  | nil => intro st r; simp [cleanLoop, removeStaleFiles]
  | cons i rest ih =>
    intro st r
    cases h : live i.pid with
    | true => simp [cleanLoop, removeStaleFiles, h, ih]
    | false => simp [cleanLoop, removeStaleFiles, h, ih]

theorem removeStaleFiles_filter (live : Int → Bool) :
    ∀ (l : List InstanceInfo) (r : List RegFile),
    removeStaleFiles live l r =
      r.filter (fun f => l.all (fun i => live i.pid || !(f.port == i.port))) := by
  intro l
  induction l with
  | nil => intro r; simp [removeStaleFiles]
  | cons i rest ih =>
    intro r
    cases h : live i.pid with
    | true =>
      rw [removeStaleFiles, if_pos (by rw [h]), ih]
      apply List.filter_congr
      intro f _
      simp [h]
    | false =>
      rw [removeStaleFiles, if_neg (by rw [h]; exact Bool.noConfusion), ih,
        removeFile, List.filter_filter]
      apply List.filter_congr
      intro f _
      simp [h, Bool.and_comm]

/-- C4: under the registry invariant (each parseable file holds a record
whose port matches its filename; filenames are unique),
`cleanStaleInstances` returns exactly the listed records whose pid is
not live, and the directory afterwards consists of exactly the original
files minus those dead records — live records and unreadable files are
untouched. -/
theorem cleanStaleInstances_exact (live : Int → Bool) (reg : List RegFile)
    (hwf : ∀ f ∈ reg, ∀ j i, f.content = some j → decodeInstance j = some i →
      i.port = f.port)
    (hnd : (reg.map (fun f => f.port)).Nodup) :
    (cleanStaleInstances live reg).1 =
      (listInstances reg).filter (fun i => !(live i.pid)) ∧
    (cleanStaleInstances live reg).2 = reg.filter (fun f =>
      match f.content.bind decodeInstance with
      | some i => live i.pid
      | none => true) := by
  have hport_of_mem : ∀ f ∈ reg, ∀ i, f.content.bind decodeInstance = some i →
      i.port = f.port := by
    intro f hf i hbind
    obtain ⟨j, hj, hji⟩ := Option.bind_eq_some.1 hbind
    exact hwf f hf j i hj hji
  rw [cleanStaleInstances, cleanLoop_eq]
  refine ⟨by simp, ?_⟩
  simp only [removeStaleFiles_filter]
  apply List.filter_congr
  intro f hf
  cases hdec : f.content.bind decodeInstance with
  | none =>
    simp only [hdec]
    rw [List.all_eq_true]
    intro i hi
    rcases (mem_listInstances reg i).1 hi with ⟨g, hg, hgi⟩
    cases hl : live i.pid with
    | true => simp
    | false =>
      have hip : i.port = g.port := hport_of_mem g hg i hgi
      have hfg : f.port ≠ i.port := by
        intro he
        have hfe : f = g := regfile_unique reg hnd hf hg (he.trans hip)
        rw [hfe, hgi] at hdec
        exact Option.noConfusion hdec
      simp [hfg]
  | some i0 =>
    have hport0 : i0.port = f.port := hport_of_mem f hf i0 hdec
    simp only [hdec]
    cases hl0 : live i0.pid with
    | true =>
      rw [List.all_eq_true]
      intro i hi
      rcases (mem_listInstances reg i).1 hi with ⟨g, hg, hgi⟩
      cases hl : live i.pid with
      | true => simp [hl]
      | false =>
        have hip : i.port = g.port := hport_of_mem g hg i hgi
        have hfg : f.port ≠ i.port := by
          intro he
          have hfe : f = g := regfile_unique reg hnd hf hg (he.trans hip)
          rw [hfe, hgi] at hdec
          have : i = i0 := by injection hdec
          rw [this, hl0] at hl
          exact Bool.noConfusion hl
        simp [hl, hfg]
    | false =>
      rw [List.all_eq_false]
      refine ⟨i0, (mem_listInstances reg i0).2 ⟨f, hf, hdec⟩, ?_⟩
      simp [hl0, hport0]

theorem cleanStaleInstances_exact_witness :
    (cleanStaleInstances (fun p => decide (p = 10))
      [⟨9222, some (instToJson ⟨10, 9222, 9223, .launch, ("a"), false, ("T"), none, none⟩)⟩,
       ⟨9224, some (instToJson ⟨11, 9224, 9225, .relay, ("b"), false, ("T"), none, none⟩)⟩]).1 =
      [⟨11, 9224, 9225, .relay, ("b"), false, ("T"), none, none⟩] :=
  ((cleanStaleInstances_exact (fun p => decide (p = 10))
    [⟨9222, some (instToJson ⟨10, 9222, 9223, .launch, ("a"), false, ("T"), none, none⟩)⟩,
     ⟨9224, some (instToJson ⟨11, 9224, 9225, .relay, ("b"), false, ("T"), none, none⟩)⟩]
    (by
      intro f hf j i hj hi
      simp only [List.mem_cons, List.not_mem_nil, or_false] at hf
      rcases hf with rfl | rfl
      · obtain rfl : j = instToJson ⟨10, 9222, 9223, .launch, ("a"), false, ("T"),
            none, none⟩ := (Option.some.inj hj).symm
        rw [decode_instToJson] at hi
        obtain rfl : InstanceInfo.mk 10 9222 9223 .launch ("a") false ("T")
            none none = i := Option.some.inj hi
        rfl
      · obtain rfl : j = instToJson ⟨11, 9224, 9225, .relay, ("b"), false, ("T"),
            none, none⟩ := (Option.some.inj hj).symm
        rw [decode_instToJson] at hi
        obtain rfl : InstanceInfo.mk 11 9224 9225 .relay ("b") false ("T")
            none none = i := Option.some.inj hi
        rfl)
    (by decide)).1).trans (by decide)

end DevBrowser
